import Mathlib

/-!
Shallow embedding of `src/utils/calculations.py` from the
mahanka-unit-economics repository: the `process_data` pipeline (inventory
COGS merge, logistics and returns merge, line-level metrics, channel-month
aggregation, overall summary) and `calculate_payback`.

Conventions of the embedding:
* Monetary and quantity values are rationals; a pandas `NaN` in a possibly
  missing numeric value is `Option` with `none` for NaN (so `NaN * x` and
  `NaN - x` stay `none`; pandas column sums and groupby sums skip NaN,
  embedded as summing the present values).
* Identifiers (`Order_ID`, `SKU`, `Channel`) are natural numbers; dates
  are triples `(year, month, day)`; the truncation `dt.to_period` keeps
  `(year, month)`.
* Tables are lists of rows; an optional column of a table is recorded by a
  `Bool` flag on the table plus an `Option`-valued field on each row.
* A left merge on a key that the data model declares unique on the right
  table (inventory `SKU`, logistics `Order_ID`) is embedded as a
  first-match lookup (`List.find?`).
* pandas groupby sorts group keys; the embedding keeps them in first
  occurrence order, which no claim depends on (all claims are about sums,
  membership or per-row fields).
-/

/-- One sales line with the required sales columns
(calculations.py lines 113-116 add the derived `Month`). -/
structure SalesRow where
  Order_ID : ℕ
  Order_Date : ℕ × ℕ × ℕ
  SKU : ℕ
  Channel : ℕ
  Units_Sold : ℚ
  Revenue : ℚ
deriving DecidableEq

/-- `dt.to_period` truncation of a date to its calendar month
(lines 116 and 184). -/
def monthOf (d : ℕ × ℕ × ℕ) : ℕ × ℕ := (d.1, d.2.1)

/-- Which per-unit cost column the inventory side of the merge carries:
`Cost_Price`, the fallback `COGS_per_Unit`, or neither (lines 123-129). -/
inductive CostCol where
  | costPrice
  | cogsPerUnit
  | absent
deriving DecidableEq

/-- Inventory table: `SKU` to unit-cost rows under the column named by
`costCol`; the data model declares SKU keys unique per row. -/
structure InventoryTable where
  costCol : CostCol
  rows : List (ℕ × ℚ)
deriving DecidableEq

/-- One logistics record (one per order). Optional columns hold `Option`
values; whether the column exists at all is a flag on the table. -/
structure LogRow where
  Order_ID : ℕ
  Fulfillment_Cost : Option ℚ
  Is_Return : Option ℤ
  Return_Status : Option String
deriving DecidableEq

/-- The logistics table with its optional-column flags. -/
structure LogisticsTable where
  hasOrderID : Bool
  hasIsReturn : Bool
  hasReturnStatus : Bool
  rows : List LogRow
deriving DecidableEq

/-- Left-join lookup of the unit cost for a SKU (line 120): `none` is the
NaN produced by the merge for an unmatched SKU. -/
def lookupCost (inv : InventoryTable) (sku : ℕ) : Option ℚ :=
  (inv.rows.find? (fun p => p.1 == sku)).map (fun p => p.2)

/-- `Total_COGS` per sales line (lines 123-129): when a cost column is
present it is the unit cost times `Units_Sold` (NaN when the SKU is
unmatched, since `NaN * x = NaN`); with no cost column in the joined
result the whole column is set to 0. -/
def totalCOGS (inv : InventoryTable) (s : SalesRow) : Option ℚ :=
  match inv.costCol with
  | CostCol.absent => some 0
  | _ => (lookupCost inv s.SKU).map (fun c => c * s.Units_Sold)

/-- Left-join lookup of the logistics record of one order (line 136). -/
def lookupLog (t : LogisticsTable) (oid : ℕ) : Option LogRow :=
  t.rows.find? (fun r => r.Order_ID == oid)

/-- The fixed list of return synonyms (line 143). -/
def returnSynonyms : List String := ["returned", "rto", "return"]

/-- Python `str.lower()` on a status value, characterwise. -/
def lowerStr (s : String) : String := String.mk (s.data.map Char.toLower)

/-- The resolved `Is_Return` flag of one order (lines 134-154). With a
logistics table keyed by `Order_ID`: the `Is_Return` column is used where
present, and `fillna(0).astype(int)` maps an unmatched order or a missing
value to 0; otherwise a `Return_Status` value counts as a return exactly
when its lowercase form is a return synonym (an unmatched order carries a
NaN status, whose string form matches no synonym, hence 0); with neither
column the flag is 0. The flag is also 0 when the whole logistics table or
its `Order_ID` column is absent. -/
def resolveIsReturn (lg : Option LogisticsTable) (oid : ℕ) : ℤ :=
  match lg with
  | none => 0
  | some t =>
    if t.hasOrderID then
      if t.hasIsReturn then
        match lookupLog t oid with
        | some r => (r.Is_Return).getD 0
        | none => 0
      else if t.hasReturnStatus then
        match lookupLog t oid with
        | some r =>
          match r.Return_Status with
          | some s => if lowerStr s ∈ returnSynonyms then 1 else 0
          | none => 0
        | none => 0
      else 0
    else 0

/-- The `Fulfillment_Cost` of one order after the logistics merge and
`fillna(0)` (lines 137, 150, 153). -/
def resolveFulfillment (lg : Option LogisticsTable) (oid : ℕ) : ℚ :=
  match lg with
  | none => 0
  | some t =>
    if t.hasOrderID then
      match lookupLog t oid with
      | some r => (r.Fulfillment_Cost).getD 0
      | none => 0
    else 0

/-- One row of the merged ledger (the granular output of `process_data`). -/
structure LedgerRow where
  Order_ID : ℕ
  SKU : ℕ
  Channel : ℕ
  Month : ℕ × ℕ
  Units_Sold : ℚ
  Revenue : ℚ
  Total_COGS : Option ℚ
  Fulfillment_Cost : ℚ
  Is_Return : ℤ
  Net_Revenue : ℚ
  Gross_Profit : Option ℚ
  Contribution_Profit_1 : Option ℚ
deriving DecidableEq

/-- The merged-ledger row of one sales line (lines 113-166): COGS and
logistics joined in, then in order `Net_Revenue` (zero exactly when the
resolved flag equals 1, via `np.where`), `Gross_Profit`
(net minus COGS) and `Contribution_Profit_1` (minus fulfillment);
a NaN `Total_COGS` propagates through both subtractions. -/
def ledgerRowOf (inv : InventoryTable) (lg : Option LogisticsTable)
    (s : SalesRow) : LedgerRow :=
  let cogs := totalCOGS inv s
  let f := resolveFulfillment lg s.Order_ID
  let ret := resolveIsReturn lg s.Order_ID
  let net := if ret = 1 then 0 else s.Revenue
  let gp := cogs.map (fun c => net - c)
  { Order_ID := s.Order_ID
    SKU := s.SKU
    Channel := s.Channel
    Month := monthOf s.Order_Date
    Units_Sold := s.Units_Sold
    Revenue := s.Revenue
    Total_COGS := cogs
    Fulfillment_Cost := f
    Is_Return := ret
    Net_Revenue := net
    Gross_Profit := gp
    Contribution_Profit_1 := gp.map (fun g => g - f) }

/-- The merged ledger: one derived row per sales line, in order. -/
def mergedLedger (sales : List SalesRow) (inv : InventoryTable)
    (lg : Option LogisticsTable) : List LedgerRow :=
  sales.map (ledgerRowOf inv lg)

/-- pandas column sums and groupby sums skip NaN: the sum of the present
values (a group of only NaN sums to 0). -/
def optSum (l : List (Option ℚ)) : ℚ :=
  (l.map (fun o => o.getD 0)).sum

/-- The grouping key of a ledger row (line 170). -/
def ledgerKey (r : LedgerRow) : ℕ × (ℕ × ℕ) := (r.Channel, r.Month)

/-- One row of `channel_group` (lines 170-179), before marketing spend. -/
structure GroupRow where
  Channel : ℕ
  Month : ℕ × ℕ
  Revenue : ℚ
  Net_Revenue : ℚ
  Total_COGS : ℚ
  Fulfillment_Cost : ℚ
  Contribution_Profit_1 : ℚ
  Units_Sold : ℚ
  Order_ID : ℕ
  Return_Count : ℤ
deriving DecidableEq

/-- The aggregate of one (Channel, Month) group (lines 170-179): sums of
each additive field, `nunique` of `Order_ID`, and the summed `Is_Return`
renamed `Return_Count`. -/
def groupRowOf (ledger : List LedgerRow) (k : ℕ × (ℕ × ℕ)) : GroupRow :=
  let g := ledger.filter (fun r => ledgerKey r == k)
  { Channel := k.1
    Month := k.2
    Revenue := (g.map (fun r => r.Revenue)).sum
    Net_Revenue := (g.map (fun r => r.Net_Revenue)).sum
    Total_COGS := optSum (g.map (fun r => r.Total_COGS))
    Fulfillment_Cost := (g.map (fun r => r.Fulfillment_Cost)).sum
    Contribution_Profit_1 := optSum (g.map (fun r => r.Contribution_Profit_1))
    Units_Sold := (g.map (fun r => r.Units_Sold)).sum
    Order_ID := ((g.map (fun r => r.Order_ID)).dedup).length
    Return_Count := (g.map (fun r => r.Is_Return)).sum }

/-- `channel_group`: one aggregate row per distinct (Channel, Month) key
of the ledger. -/
def channelGroup (ledger : List LedgerRow) : List GroupRow :=
  ((ledger.map ledgerKey).dedup).map (groupRowOf ledger)

/-- The key of a `channel_group` row. -/
def groupKey (g : GroupRow) : ℕ × (ℕ × ℕ) := (g.Channel, g.Month)

/-- One marketing record. The caller-supplied table has no `Month` column
(`Month := none`); lines 183-184 assign it in place. -/
structure MktRow where
  Date : ℕ × ℕ × ℕ
  Month : Option (ℕ × ℕ)
  Channel : ℕ
  Spend : ℚ
deriving DecidableEq

/-- Lines 183-184, executed on the caller's marketing table itself: the
`Date` column coerced (already a date here) and a `Month` column
assigned from it. -/
def withMonth (m : List MktRow) : List MktRow :=
  m.map (fun r => { r with Month := some (monthOf r.Date) })

/-- The (Channel, Month) key of a marketing row as grouped on line 187;
after the line 184 assignment the `Month` column is always present, so
the default is never reached. -/
def mktRowKey (r : MktRow) : ℕ × (ℕ × ℕ) :=
  (r.Channel, (r.Month).getD (0, 0))

/-- The summed `Spend` of one (Channel, Month) marketing group: the value
`mkt_agg` pairs with that key (line 187), duplicate records summed. -/
def mktSpendOf (m : List MktRow) (k : ℕ × (ℕ × ℕ)) : ℚ :=
  (((withMonth m).filter (fun r => mktRowKey r == k)).map
    (fun r => r.Spend)).sum

/-- `mkt_agg` (line 187): marketing spend summed by (Channel, Month),
one pair per distinct key. -/
def mktAgg (m : List MktRow) : List ((ℕ × (ℕ × ℕ)) × ℚ) :=
  (((withMonth m).map mktRowKey).dedup).map (fun k => (k, mktSpendOf m k))

/-- One row of `channel_metrics` (lines 189-213). -/
structure AggRow where
  Channel : ℕ
  Month : ℕ × ℕ
  Revenue : ℚ
  Net_Revenue : ℚ
  Total_COGS : ℚ
  Fulfillment_Cost : ℚ
  Contribution_Profit_1 : ℚ
  Units_Sold : ℚ
  Order_ID : ℕ
  Return_Count : ℤ
  Spend : ℚ
  Contribution_Profit_2 : ℚ
  CAC : ℚ
  ROAS : ℚ
  AOV : ℚ
  CM_Pct : ℚ
  Return_Rate_Pct : ℚ
deriving DecidableEq

/-- Lines 195-213: `Contribution_Profit_2` and the KPI columns of one
`channel_metrics` row, every division guarded by a positive-denominator
`np.where` that defaults the ratio to 0. -/
def addKPIs (g : GroupRow) (spend : ℚ) : AggRow :=
  let cp2 := g.Contribution_Profit_1 - spend
  { Channel := g.Channel
    Month := g.Month
    Revenue := g.Revenue
    Net_Revenue := g.Net_Revenue
    Total_COGS := g.Total_COGS
    Fulfillment_Cost := g.Fulfillment_Cost
    Contribution_Profit_1 := g.Contribution_Profit_1
    Units_Sold := g.Units_Sold
    Order_ID := g.Order_ID
    Return_Count := g.Return_Count
    Spend := spend
    Contribution_Profit_2 := cp2
    CAC := if 0 < g.Order_ID then spend / (g.Order_ID : ℚ) else 0
    ROAS := if 0 < spend then g.Revenue / spend else 0
    AOV := if 0 < g.Order_ID then g.Revenue / (g.Order_ID : ℚ) else 0
    CM_Pct := if 0 < g.Net_Revenue then cp2 / g.Net_Revenue else 0
    Return_Rate_Pct :=
      if 0 < g.Order_ID then (g.Return_Count : ℚ) / (g.Order_ID : ℚ) else 0 }

/-- A `channel_metrics` row whose (Channel, Month) key is present only on
the marketing side of the outer join: every sales-derived field is NaN
after the join and `fillna(0)` sets it to 0 (line 189). -/
def zeroGroupRow (k : ℕ × (ℕ × ℕ)) : GroupRow :=
  { Channel := k.1
    Month := k.2
    Revenue := 0
    Net_Revenue := 0
    Total_COGS := 0
    Fulfillment_Cost := 0
    Contribution_Profit_1 := 0
    Units_Sold := 0
    Order_ID := 0
    Return_Count := 0 }

/-- `channel_metrics` (lines 181-213). With marketing present: the outer
join of `channel_group` and `mkt_agg` on (Channel, Month) with
`fillna(0)` — each group row takes its matched spend or 0, and each
marketing-only key becomes a zero-filled group row with its spend; with
marketing absent, `Spend` is the constant 0 column. Then the KPI columns
are added to every row. -/
def channelMetrics (ledger : List LedgerRow)
    (marketing : Option (List MktRow)) : List AggRow :=
  let groups := channelGroup ledger
  match marketing with
  | none => groups.map (fun g => addKPIs g 0)
  | some m =>
    let agg := mktAgg m
    let matched := groups.map (fun g =>
      addKPIs g (((agg.find? (fun p => p.1 == groupKey g)).map
        (fun p => p.2)).getD 0))
    let extra := (agg.filter
      (fun p => !(groups.any (fun g => groupKey g == p.1)))).map
      (fun p => addKPIs (zeroGroupRow p.1) p.2)
    matched ++ extra

/-- The overall summary dictionary (lines 216-232). -/
structure Overall where
  Gross_Revenue : ℚ
  Net_Revenue : ℚ
  Total_Spend : ℚ
  Total_Orders : ℕ
  Net_Profit : ℚ
  Blended_ROAS : ℚ
  Blended_CAC : ℚ
  Blended_CM_Pct : ℚ
  Return_Rate : ℚ
deriving DecidableEq

/-- Lines 216-232: sums of the aggregate columns, then the blended ratios,
each division guarded by a positive-denominator check defaulting to 0.
`Total_Orders` is the sum of the per-group distinct order counts. -/
def overallSummary (cm : List AggRow) : Overall :=
  let grossRev := (cm.map (fun r => r.Revenue)).sum
  let netRev := (cm.map (fun r => r.Net_Revenue)).sum
  let totalSpend := (cm.map (fun r => r.Spend)).sum
  let totalOrders := (cm.map (fun r => r.Order_ID)).sum
  let totalMargin := (cm.map (fun r => r.Contribution_Profit_2)).sum
  { Gross_Revenue := grossRev
    Net_Revenue := netRev
    Total_Spend := totalSpend
    Total_Orders := totalOrders
    Net_Profit := totalMargin
    Blended_ROAS := if 0 < totalSpend then grossRev / totalSpend else 0
    Blended_CAC :=
      if 0 < totalOrders then totalSpend / (totalOrders : ℚ) else 0
    Blended_CM_Pct := if 0 < netRev then totalMargin / netRev else 0
    Return_Rate :=
      if 0 < totalOrders then
        (((cm.map (fun r => r.Return_Count)).sum : ℤ) : ℚ) / (totalOrders : ℚ)
      else 0 }

/-- The whole `process_data` pipeline (lines 105-234): the merged ledger,
the channel-month aggregate, and the overall summary. -/
def process_data (sales : List SalesRow) (inv : InventoryTable)
    (marketing : Option (List MktRow)) (lg : Option LogisticsTable) :
    List LedgerRow × List AggRow × Overall :=
  let ledger := mergedLedger sales inv lg
  let cm := channelMetrics ledger marketing
  (ledger, cm, overallSummary cm)

/-- The state of the four caller-supplied tables after `process_data`
returns: sales is copied before any mutation (line 114) and the inventory
and logistics merges build new frames (lines 120, 136), but lines 183-184
assign the coerced `Date` and the new `Month` column into the caller's
marketing table itself. -/
structure ProcessPost where
  sales : List SalesRow
  inventory : InventoryTable
  marketing : Option (List MktRow)
  logistics : Option LogisticsTable
deriving DecidableEq

/-- The post-call state of the caller's four tables. -/
def processPost (sales : List SalesRow) (inv : InventoryTable)
    (marketing : Option (List MktRow)) (lg : Option LogisticsTable) :
    ProcessPost :=
  { sales := sales
    inventory := inv
    marketing := marketing.map withMonth
    logistics := lg }

/-- Forgets the `Month` column of a marketing row, for comparing the
remaining columns across the in-place mutation. -/
def dropMonth (r : MktRow) : MktRow := { r with Month := none }

/-- `calculate_payback` (lines 255-257): a non-positive margin returns 999
without dividing; otherwise CAC over margin. -/
def calculate_payback (cac marginPerOrder : ℚ) : ℚ :=
  if marginPerOrder ≤ 0 then 999 else cac / marginPerOrder

/-- The Returns Resolver as the specification states it, for comparison
with `resolveIsReturn`: per line, the `Is_Return` column value when that
column is present (0 for an order absent from logistics or a missing
value); otherwise 1 exactly when the `Return_Status` value lowercases to
one of the three fixed synonyms, and 0 for any other status, a missing
status, or an absent order; 0 when both columns, the whole logistics
table, or its `Order_ID` key are absent. -/
def specResolvedFlag (lg : Option LogisticsTable) (oid : ℕ) : ℤ :=
  match lg with
  | none => 0
  | some t =>
    if t.hasOrderID then
      match lookupLog t oid with
      | none => 0
      | some r =>
        if t.hasIsReturn then (r.Is_Return).getD 0
        else if t.hasReturnStatus then
          match r.Return_Status with
          | some s =>
            if lowerStr s = "returned" ∨ lowerStr s = "rto" ∨
                lowerStr s = "return" then 1 else 0
          | none => 0
        else 0
    else 0

/-! Concrete tables used by witnesses and counterexamples. The returned
line mirrors the scenario of the spec: Revenue 1000, two units at cost
200, fulfillment 80, flagged as a return. -/

/-- A sales line: order 1, SKU 10, channel 3, 2 units, revenue 1000. -/
def sEx : SalesRow :=
  { Order_ID := 1, Order_Date := (2024, 1, 15), SKU := 10, Channel := 3,
    Units_Sold := 2, Revenue := 1000 }

/-- An inventory table with a `Cost_Price` column and one SKU. -/
def invEx : InventoryTable :=
  { costCol := CostCol.costPrice, rows := [(10, 200)] }

/-- A logistics table with the numeric `Is_Return` column: order 1 is a
return with fulfillment cost 80. -/
def lgEx : LogisticsTable :=
  { hasOrderID := true, hasIsReturn := true, hasReturnStatus := false,
    rows := [{ Order_ID := 1, Fulfillment_Cost := some 80,
               Is_Return := some 1, Return_Status := none }] }

/-- A marketing table: two records for channel 2 in January 2024. -/
def mEx : List MktRow :=
  [{ Date := (2024, 1, 5), Month := none, Channel := 2, Spend := 100 },
   { Date := (2024, 1, 20), Month := none, Channel := 2, Spend := 50 }]

/-- A sales line whose SKU 99 has no inventory match. -/
def sNo : SalesRow :=
  { Order_ID := 2, Order_Date := (2024, 2, 3), SKU := 99, Channel := 3,
    Units_Sold := 1, Revenue := 500 }

/-- C10: for every cac and every margin_per_order at most 0,
calculate_payback returns 999 without dividing; for a positive margin it
returns cac / margin_per_order. -/
theorem payback_guard (cac marginPerOrder : ℚ) :
    (marginPerOrder ≤ 0 → calculate_payback cac marginPerOrder = 999) ∧
    (0 < marginPerOrder →
      calculate_payback cac marginPerOrder = cac / marginPerOrder) := by
  constructor
  · intro h
    simp [calculate_payback, h]
  · intro h
    simp [calculate_payback, not_le.2 h]

/-- Witness for C10 at cac 500 with margins 0 and 250. -/
theorem payback_guard_witness :
    calculate_payback 500 0 = 999 ∧ calculate_payback 500 250 = 500 / 250 :=
  ⟨(payback_guard 500 0).1 (by norm_num),
   (payback_guard 500 250).2 (by norm_num)⟩

/-- C7: the resolved return flag of `process_data` agrees with the
resolver the specification describes, on every logistics table and
order: the `Is_Return` column value when that column is present,
otherwise the synonym test on `Return_Status`, and 0 for an absent
order, an absent column pair, an absent table, or an absent `Order_ID`
key. -/
theorem returns_flag_matches_spec (lg : Option LogisticsTable) (oid : ℕ) :
    resolveIsReturn lg oid = specResolvedFlag lg oid := by
  cases lg with
  | none => rfl
  | some t =>
    obtain ⟨ho, hi, hrs, rows⟩ := t
    cases ho <;> cases hi <;> cases hrs <;>
      simp only [resolveIsReturn, specResolvedFlag, Bool.false_eq_true,
        if_false, if_true, lookupLog] <;>
      cases h : List.find? (fun r => r.Order_ID == oid) rows <;>
      simp [h, returnSynonyms]

/-- C1: a merged-ledger row whose resolved return flag is 1 has net
revenue 0 and contribution profit 1 equal to minus COGS minus
fulfillment cost (both sunk). -/
theorem return_row_sunk_costs (sales : List SalesRow) (inv : InventoryTable)
    (lg : Option LogisticsTable) :
    ∀ r ∈ mergedLedger sales inv lg, r.Is_Return = 1 →
      r.Net_Revenue = 0 ∧
      r.Contribution_Profit_1 =
        (r.Total_COGS).map (fun c => -c - r.Fulfillment_Cost) := by
  intro r hr hret
  obtain ⟨s, _, rfl⟩ := List.mem_map.1 hr
  simp only [ledgerRowOf] at hret ⊢
  refine ⟨by simp [hret], ?_⟩
  simp only [hret, if_pos rfl, Option.map_map]
  cases totalCOGS inv s <;> simp

/-- Witness for C1 at the returned example line. -/
theorem return_row_sunk_costs_witness :
    (ledgerRowOf invEx (some lgEx) sEx).Net_Revenue = 0 ∧
    (ledgerRowOf invEx (some lgEx) sEx).Contribution_Profit_1 =
      ((ledgerRowOf invEx (some lgEx) sEx).Total_COGS).map
        (fun c => -c - (ledgerRowOf invEx (some lgEx) sEx).Fulfillment_Cost) :=
  return_row_sunk_costs [sEx] invEx (some lgEx)
    (ledgerRowOf invEx (some lgEx) sEx) (by simp [mergedLedger]) (by decide)

/-- C2: every merged-ledger row has net revenue 0 or exactly its gross
revenue, never any other value. -/
theorem net_revenue_zero_or_gross (sales : List SalesRow)
    (inv : InventoryTable) (lg : Option LogisticsTable) :
    ∀ r ∈ mergedLedger sales inv lg,
      r.Net_Revenue = 0 ∨ r.Net_Revenue = r.Revenue := by
  intro r hr
  obtain ⟨s, _, rfl⟩ := List.mem_map.1 hr
  by_cases h : resolveIsReturn lg s.Order_ID = 1
  · exact Or.inl (by simp [ledgerRowOf, h])
  · exact Or.inr (by simp [ledgerRowOf, h])

/-- Witness for C2 at the example line. -/
theorem net_revenue_zero_or_gross_witness :
    (ledgerRowOf invEx (some lgEx) sEx).Net_Revenue = 0 ∨
    (ledgerRowOf invEx (some lgEx) sEx).Net_Revenue =
      (ledgerRowOf invEx (some lgEx) sEx).Revenue :=
  net_revenue_zero_or_gross [sEx] invEx (some lgEx)
    (ledgerRowOf invEx (some lgEx) sEx) (by simp [mergedLedger])

/-- C3 counterexample: a sales line whose SKU 99 has no match in an
inventory table that carries a `Cost_Price` column gets a NaN
`Total_COGS` (the merge leaves `Cost_Price` NaN and `NaN * units` stays
NaN), not 0. -/
theorem unmatched_sku_cogs_cex :
    lookupCost invEx sNo.SKU = none ∧
    (mergedLedger [sNo] invEx none).map (fun r => r.Total_COGS) = [none] ∧
    (mergedLedger [sNo] invEx none).map (fun r => r.Total_COGS) ≠ [some 0] :=
  by decide

/-- C3 amended: a sales line with no inventory match gets a missing (NaN)
`Total_COGS` when the joined result carries a cost column, and 0 only
when no cost column exists at all; the merge itself never raises (it is
total on every input). -/
theorem unmatched_sku_cogs (sales : List SalesRow) (inv : InventoryTable)
    (lg : Option LogisticsTable) :
    ∀ r ∈ mergedLedger sales inv lg, lookupCost inv r.SKU = none →
      (inv.costCol ≠ CostCol.absent → r.Total_COGS = none) ∧
      (inv.costCol = CostCol.absent → r.Total_COGS = some 0) := by
  intro r hr hl
  obtain ⟨s, _, rfl⟩ := List.mem_map.1 hr
  simp only [ledgerRowOf] at hl ⊢
  constructor
  · intro hc
    rcases hcc : inv.costCol with _ | _ | _
    · simp [totalCOGS, hcc, hl]
    · simp [totalCOGS, hcc, hl]
    · exact absurd hcc hc
  · intro hc
    simp [totalCOGS, hc]

/-- Witness for the amended C3 at the unmatched SKU 99. -/
theorem unmatched_sku_cogs_witness :
    (ledgerRowOf invEx none sNo).Total_COGS = none :=
  (unmatched_sku_cogs [sNo] invEx none (ledgerRowOf invEx none sNo)
    (by simp [mergedLedger]) (by decide)).1 (by decide)

/-- C9 counterexample: after processing, the caller's marketing table has
been mutated in place — its rows carry the new `Month` column. -/
theorem marketing_mutation_cex :
    (processPost [sEx] invEx (some mEx) (some lgEx)).marketing ≠ some mEx :=
  by decide

/-- C9 amended: processing leaves the caller's sales, inventory and
logistics tables unchanged (and is a pure function of its inputs), but
mutates the marketing table in place by assigning its `Month` column; the
other marketing columns (`Date`, `Channel`, `Spend`) are preserved. -/
theorem process_post_tables (sales : List SalesRow) (inv : InventoryTable)
    (marketing : Option (List MktRow)) (lg : Option LogisticsTable) :
    (processPost sales inv marketing lg).sales = sales ∧
    (processPost sales inv marketing lg).inventory = inv ∧
    (processPost sales inv marketing lg).logistics = lg ∧
    (processPost sales inv marketing lg).marketing = marketing.map withMonth ∧
    ((processPost sales inv marketing lg).marketing).map
        (fun t => t.map dropMonth)
      = marketing.map (fun t => t.map dropMonth) := by
  refine ⟨rfl, rfl, rfl, rfl, ?_⟩
  cases marketing with
  | none => rfl
  | some m =>
    show some ((withMonth m).map dropMonth) = some (m.map dropMonth)
    rw [withMonth, List.map_map]
    rfl

/-- Splitting a mapped sum along a Boolean predicate. -/
theorem sum_map_filter_not_split {α : Type} (p : α → Bool) (f : α → ℚ)
    (l : List α) :
    ((l.filter p).map f).sum + ((l.filter (fun a => !(p a))).map f).sum
      = (l.map f).sum := by
  induction l with
  | nil => simp
  | cons a t ih =>
    cases h : p a <;> simp [List.filter_cons, h] <;> linarith [ih]

/-- A sum of per-group sums over a duplicate-free list of keys covering
every row equals the total sum: the partition argument behind the groupby
aggregations. -/
theorem group_sum_eq_total {α κ : Type} [BEq κ] [LawfulBEq κ]
    (key : α → κ) (f : α → ℚ) :
    ∀ ks : List κ, ks.Nodup → ∀ rows : List α, (∀ r ∈ rows, key r ∈ ks) →
      (ks.map (fun k =>
        ((rows.filter (fun r => key r == k)).map f).sum)).sum
        = (rows.map f).sum := by
  intro ks
  induction ks with
  | nil =>
    intro _ rows hcov
    have hnil : rows = [] :=
      List.eq_nil_iff_forall_not_mem.2 (fun a ha => by simpa using hcov a ha)
    subst hnil
    simp
  | cons k ks ih =>
    intro hnd rows hcov
    have hk : k ∉ ks := (List.nodup_cons.1 hnd).1
    have hnd2 : ks.Nodup := (List.nodup_cons.1 hnd).2
    have hrest : ∀ k2 ∈ ks,
        rows.filter (fun r => key r == k2)
          = (rows.filter (fun r => !(key r == k))).filter
              (fun r => key r == k2) := by
      intro k2 hk2
      rw [List.filter_filter]
      apply List.filter_congr
      intro a _
      cases h2 : (key a == k2)
      · simp
      · have hak : key a = k2 := eq_of_beq h2
        have hne : (key a == k) = false := by
          apply beq_eq_false_iff_ne.2
          intro hkk
          have hkeq : k2 = k := by rw [← hak, hkk]
          exact hk (hkeq ▸ hk2)
        simp [hne]
    have hcov2 : ∀ r ∈ rows.filter (fun r => !(key r == k)), key r ∈ ks := by
      intro r hr
      have hmem := (List.mem_filter.1 hr).1
      have hneq := (List.mem_filter.1 hr).2
      rcases List.mem_cons.1 (hcov r hmem) with h | h
      · rw [h] at hneq
        simp at hneq
      · exact h
    have hmapeq :
        ks.map (fun k2 => ((rows.filter (fun r => key r == k2)).map f).sum)
          = ks.map (fun k2 =>
              (((rows.filter (fun r => !(key r == k))).filter
                (fun r => key r == k2)).map f).sum) :=
      List.map_congr_left (fun k2 hk2 => by rw [hrest k2 hk2])
    calc (List.map (fun k2 =>
            ((rows.filter (fun r => key r == k2)).map f).sum) (k :: ks)).sum
        = ((rows.filter (fun r => key r == k)).map f).sum
            + (ks.map (fun k2 =>
                ((rows.filter (fun r => key r == k2)).map f).sum)).sum := by
          simp [List.sum_cons]
      _ = ((rows.filter (fun r => key r == k)).map f).sum
            + ((rows.filter (fun r => !(key r == k))).map f).sum := by
          rw [hmapeq, ih hnd2 _ hcov2]
      _ = (rows.map f).sum := sum_map_filter_not_split _ f rows

/-- A column sum over `channel_group` equals the corresponding ledger
column sum, for any pair of projections that agree on each group. -/
theorem channelGroup_field_sum (ledger : List LedgerRow)
    (f : LedgerRow → ℚ) (g : GroupRow → ℚ)
    (hfg : ∀ k, g (groupRowOf ledger k)
      = ((ledger.filter (fun r => ledgerKey r == k)).map f).sum) :
    ((channelGroup ledger).map g).sum = (ledger.map f).sum := by
  rw [channelGroup, List.map_map]
  have h1 : ((ledger.map ledgerKey).dedup).map (g ∘ groupRowOf ledger)
      = ((ledger.map ledgerKey).dedup).map (fun k =>
          ((ledger.filter (fun r => ledgerKey r == k)).map f).sum) :=
    List.map_congr_left (fun k _ => hfg k)
  rw [h1]
  exact group_sum_eq_total ledgerKey f ((ledger.map ledgerKey).dedup)
    (List.nodup_dedup _) ledger
    (fun r hr => List.mem_dedup.2 (List.mem_map_of_mem ledgerKey hr))

/-- A column sum over `channel_metrics` equals the corresponding
`channel_group` column sum: the KPI step keeps every group field, and the
zero-filled marketing-only rows contribute 0 to a sales-derived column. -/
theorem channelMetrics_field_sum (ledger : List LedgerRow)
    (marketing : Option (List MktRow)) (fA : AggRow → ℚ) (fG : GroupRow → ℚ)
    (h1 : ∀ g s, fA (addKPIs g s) = fG g)
    (h0 : ∀ k, fG (zeroGroupRow k) = 0) :
    ((channelMetrics ledger marketing).map fA).sum
      = ((channelGroup ledger).map fG).sum := by
  cases marketing with
  | none =>
    simp only [channelMetrics, List.map_map]
    exact congrArg List.sum
      (List.map_congr_left (fun g _ => h1 g 0))
  | some m =>
    simp only [channelMetrics, List.map_append, List.sum_append,
      List.map_map]
    have hzero : (((mktAgg m).filter (fun p =>
        !((channelGroup ledger).any (fun g => groupKey g == p.1)))).map
          (fA ∘ fun p => addKPIs (zeroGroupRow p.1) p.2)).sum = 0 := by
      apply List.sum_eq_zero
      intro x hx
      obtain ⟨p, _, rfl⟩ := List.mem_map.1 hx
      show fA (addKPIs (zeroGroupRow p.1) p.2) = 0
      rw [h1, h0]
    rw [hzero, add_zero]
    exact congrArg List.sum
      (List.map_congr_left (fun g _ => h1 g _))

/-- C5: aggregation conserves each additive column — the channel-month
aggregate sums of Revenue, Net_Revenue, Total_COGS, Fulfillment_Cost and
Units_Sold equal the merged-ledger column sums (ledger Total_COGS summed
as pandas does, skipping missing values). -/
theorem aggregation_conserves_sums (sales : List SalesRow)
    (inv : InventoryTable) (marketing : Option (List MktRow))
    (lg : Option LogisticsTable) :
    ∀ ledger cm, ledger = mergedLedger sales inv lg →
      cm = channelMetrics ledger marketing →
      (cm.map (fun r => r.Revenue)).sum
          = (ledger.map (fun r => r.Revenue)).sum ∧
      (cm.map (fun r => r.Net_Revenue)).sum
          = (ledger.map (fun r => r.Net_Revenue)).sum ∧
      (cm.map (fun r => r.Total_COGS)).sum
          = optSum (ledger.map (fun r => r.Total_COGS)) ∧
      (cm.map (fun r => r.Fulfillment_Cost)).sum
          = (ledger.map (fun r => r.Fulfillment_Cost)).sum ∧
      (cm.map (fun r => r.Units_Sold)).sum
          = (ledger.map (fun r => r.Units_Sold)).sum := by
  intro ledger cm hL hC
  subst hL
  subst hC
  refine ⟨?_, ?_, ?_, ?_, ?_⟩
  · rw [channelMetrics_field_sum _ _ _ (fun g => g.Revenue)
      (fun g s => rfl) (fun k => rfl)]
    exact channelGroup_field_sum _ (fun r => r.Revenue) _ (fun k => rfl)
  · rw [channelMetrics_field_sum _ _ _ (fun g => g.Net_Revenue)
      (fun g s => rfl) (fun k => rfl)]
    exact channelGroup_field_sum _ (fun r => r.Net_Revenue) _ (fun k => rfl)
  · rw [channelMetrics_field_sum _ _ _ (fun g => g.Total_COGS)
      (fun g s => rfl) (fun k => rfl)]
    rw [channelGroup_field_sum _ (fun r => (r.Total_COGS).getD 0) _
      (fun k => by
        simp [groupRowOf, optSum, List.map_map, Function.comp_def])]
    simp [optSum, List.map_map, Function.comp_def]
  · rw [channelMetrics_field_sum _ _ _ (fun g => g.Fulfillment_Cost)
      (fun g s => rfl) (fun k => rfl)]
    exact channelGroup_field_sum _ (fun r => r.Fulfillment_Cost) _
      (fun k => rfl)
  · rw [channelMetrics_field_sum _ _ _ (fun g => g.Units_Sold)
      (fun g s => rfl) (fun k => rfl)]
    exact channelGroup_field_sum _ (fun r => r.Units_Sold) _ (fun k => rfl)

/-- Witness for C5 at the one-line example dataset. -/
theorem aggregation_conserves_sums_witness :
    ((channelMetrics (mergedLedger [sEx] invEx (some lgEx)) (some mEx)).map
        (fun r => r.Revenue)).sum
      = ((mergedLedger [sEx] invEx (some lgEx)).map
        (fun r => r.Revenue)).sum ∧
    ((channelMetrics (mergedLedger [sEx] invEx (some lgEx)) (some mEx)).map
        (fun r => r.Net_Revenue)).sum
      = ((mergedLedger [sEx] invEx (some lgEx)).map
        (fun r => r.Net_Revenue)).sum ∧
    ((channelMetrics (mergedLedger [sEx] invEx (some lgEx)) (some mEx)).map
        (fun r => r.Total_COGS)).sum
      = optSum ((mergedLedger [sEx] invEx (some lgEx)).map
        (fun r => r.Total_COGS)) ∧
    ((channelMetrics (mergedLedger [sEx] invEx (some lgEx)) (some mEx)).map
        (fun r => r.Fulfillment_Cost)).sum
      = ((mergedLedger [sEx] invEx (some lgEx)).map
        (fun r => r.Fulfillment_Cost)).sum ∧
    ((channelMetrics (mergedLedger [sEx] invEx (some lgEx)) (some mEx)).map
        (fun r => r.Units_Sold)).sum
      = ((mergedLedger [sEx] invEx (some lgEx)).map
        (fun r => r.Units_Sold)).sum :=
  aggregation_conserves_sums [sEx] invEx (some mEx) (some lgEx)
    (mergedLedger [sEx] invEx (some lgEx))
    (channelMetrics (mergedLedger [sEx] invEx (some lgEx)) (some mEx))
    rfl rfl

/-- A (Channel, Month) key with marketing records but no ledger row
produces the zero-filled aggregate row carrying its summed spend: the
outer-join membership argument shared by the aggregate-shape results. -/
theorem extraRow_mem (ledger : List LedgerRow) (m : List MktRow)
    (k : ℕ × (ℕ × ℕ)) (hk : k ∈ (withMonth m).map mktRowKey)
    (hno : ∀ r ∈ ledger, ledgerKey r ≠ k) :
    addKPIs (zeroGroupRow k) (mktSpendOf m k)
      ∈ channelMetrics ledger (some m) := by
  simp only [channelMetrics]
  apply List.mem_append_right
  have hAgg : (k, mktSpendOf m k) ∈ mktAgg m := by
    rw [mktAgg]
    exact List.mem_map_of_mem _ (List.mem_dedup.2 hk)
  have hflt : (!((channelGroup ledger).any
      (fun g => groupKey g == (k, mktSpendOf m k).1))) = true := by
    rw [Bool.not_eq_true']
    apply List.any_eq_false.2
    intro g hg
    obtain ⟨k2, hk2, rfl⟩ := List.mem_map.1 hg
    intro hbeq
    have hk2k : k2 = k := eq_of_beq hbeq
    obtain ⟨r, hr, hrk⟩ := List.mem_map.1 (List.mem_dedup.1 hk2)
    exact hno r hr (by rw [hrk, hk2k])
  exact List.mem_map_of_mem _ (List.mem_filter.2 ⟨hAgg, hflt⟩)

/-- C8: a (Channel, Month) key present in the marketing table but in no
sales-derived group still yields a channel-metrics row, with that key,
all sales-derived fields 0, and its spend equal to the sum over the
marketing records of that key (duplicates summed, not overwritten). -/
theorem marketing_only_key_aggregate (sales : List SalesRow)
    (inv : InventoryTable) (lg : Option LogisticsTable) (m : List MktRow)
    (k : ℕ × (ℕ × ℕ)) (hk : k ∈ (withMonth m).map mktRowKey)
    (hno : ∀ r ∈ mergedLedger sales inv lg, ledgerKey r ≠ k) :
    addKPIs (zeroGroupRow k) (mktSpendOf m k)
        ∈ channelMetrics (mergedLedger sales inv lg) (some m) ∧
    (addKPIs (zeroGroupRow k) (mktSpendOf m k)).Channel = k.1 ∧
    (addKPIs (zeroGroupRow k) (mktSpendOf m k)).Month = k.2 ∧
    (addKPIs (zeroGroupRow k) (mktSpendOf m k)).Revenue = 0 ∧
    (addKPIs (zeroGroupRow k) (mktSpendOf m k)).Net_Revenue = 0 ∧
    (addKPIs (zeroGroupRow k) (mktSpendOf m k)).Total_COGS = 0 ∧
    (addKPIs (zeroGroupRow k) (mktSpendOf m k)).Fulfillment_Cost = 0 ∧
    (addKPIs (zeroGroupRow k) (mktSpendOf m k)).Units_Sold = 0 ∧
    (addKPIs (zeroGroupRow k) (mktSpendOf m k)).Order_ID = 0 ∧
    (addKPIs (zeroGroupRow k) (mktSpendOf m k)).Return_Count = 0 ∧
    (addKPIs (zeroGroupRow k) (mktSpendOf m k)).Spend = mktSpendOf m k :=
  ⟨extraRow_mem _ m k hk hno,
    rfl, rfl, rfl, rfl, rfl, rfl, rfl, rfl, rfl, rfl⟩

/-- Witness for C8: marketing channel 2 has two January records and no
sales; its aggregate row exists with zero metrics and the summed spend. -/
theorem marketing_only_key_aggregate_witness :
    addKPIs (zeroGroupRow (2, (2024, 1))) (mktSpendOf mEx (2, (2024, 1)))
        ∈ channelMetrics (mergedLedger [sEx] invEx (some lgEx)) (some mEx) ∧
    (addKPIs (zeroGroupRow (2, (2024, 1)))
      (mktSpendOf mEx (2, (2024, 1)))).Channel = 2 ∧
    (addKPIs (zeroGroupRow (2, (2024, 1)))
      (mktSpendOf mEx (2, (2024, 1)))).Month = (2024, 1) ∧
    (addKPIs (zeroGroupRow (2, (2024, 1)))
      (mktSpendOf mEx (2, (2024, 1)))).Revenue = 0 ∧
    (addKPIs (zeroGroupRow (2, (2024, 1)))
      (mktSpendOf mEx (2, (2024, 1)))).Net_Revenue = 0 ∧
    (addKPIs (zeroGroupRow (2, (2024, 1)))
      (mktSpendOf mEx (2, (2024, 1)))).Total_COGS = 0 ∧
    (addKPIs (zeroGroupRow (2, (2024, 1)))
      (mktSpendOf mEx (2, (2024, 1)))).Fulfillment_Cost = 0 ∧
    (addKPIs (zeroGroupRow (2, (2024, 1)))
      (mktSpendOf mEx (2, (2024, 1)))).Units_Sold = 0 ∧
    (addKPIs (zeroGroupRow (2, (2024, 1)))
      (mktSpendOf mEx (2, (2024, 1)))).Order_ID = 0 ∧
    (addKPIs (zeroGroupRow (2, (2024, 1)))
      (mktSpendOf mEx (2, (2024, 1)))).Return_Count = 0 ∧
    (addKPIs (zeroGroupRow (2, (2024, 1)))
      (mktSpendOf mEx (2, (2024, 1)))).Spend = mktSpendOf mEx (2, (2024, 1)) :=
  marketing_only_key_aggregate [sEx] invEx (some lgEx) mEx (2, (2024, 1))
    (by decide) (by decide)

/-- Every channel-metrics row is a KPI-extended group row. -/
theorem mem_channelMetrics {ledger : List LedgerRow}
    {marketing : Option (List MktRow)} {row : AggRow}
    (h : row ∈ channelMetrics ledger marketing) :
    ∃ g s, row = addKPIs g s := by
  cases marketing with
  | none =>
    simp only [channelMetrics] at h
    obtain ⟨g, _, rfl⟩ := List.mem_map.1 h
    exact ⟨g, 0, rfl⟩
  | some m =>
    simp only [channelMetrics] at h
    rcases List.mem_append.1 h with h | h
    · obtain ⟨g, _, rfl⟩ := List.mem_map.1 h
      exact ⟨g, _, rfl⟩
    · obtain ⟨p, _, rfl⟩ := List.mem_map.1 h
      exact ⟨zeroGroupRow p.1, p.2, rfl⟩

/-- C4: every derived ratio of every channel-month row (CAC, ROAS, AOV,
CM_Pct, Return_Rate_Pct) and of the overall summary (Blended_ROAS,
Blended_CAC, Blended_CM_Pct, Return_Rate) is 0 whenever its denominator
(distinct order count, spend, or net revenue) is zero; every ratio is
total, so no division error can be raised. -/
theorem ratio_zero_guards (sales : List SalesRow) (inv : InventoryTable)
    (marketing : Option (List MktRow)) (lg : Option LogisticsTable) :
    (∀ row ∈ channelMetrics (mergedLedger sales inv lg) marketing,
      (row.Order_ID = 0 →
        row.CAC = 0 ∧ row.AOV = 0 ∧ row.Return_Rate_Pct = 0) ∧
      (row.Spend = 0 → row.ROAS = 0) ∧
      (row.Net_Revenue = 0 → row.CM_Pct = 0)) ∧
    (∀ o : Overall,
      o = overallSummary
        (channelMetrics (mergedLedger sales inv lg) marketing) →
      (o.Total_Spend = 0 → o.Blended_ROAS = 0) ∧
      (o.Total_Orders = 0 → o.Blended_CAC = 0 ∧ o.Return_Rate = 0) ∧
      (o.Net_Revenue = 0 → o.Blended_CM_Pct = 0)) := by
  constructor
  · intro row hrow
    obtain ⟨g, s, rfl⟩ := mem_channelMetrics hrow
    refine ⟨fun h0 => ?_, fun h0 => ?_, fun h0 => ?_⟩
    · have hg : g.Order_ID = 0 := h0
      refine ⟨?_, ?_, ?_⟩ <;> simp [addKPIs, hg]
    · have hs : s = 0 := h0
      simp [addKPIs, hs]
    · have hn : g.Net_Revenue = 0 := h0
      simp [addKPIs, hn]
  · intro o ho
    subst ho
    refine ⟨fun h0 => ?_, fun h0 => ?_, fun h0 => ?_⟩
    · have h : ((channelMetrics (mergedLedger sales inv lg) marketing).map
          (fun r => r.Spend)).sum = 0 := h0
      simp [overallSummary, h]
    · have h : ((channelMetrics (mergedLedger sales inv lg) marketing).map
          (fun r => r.Order_ID)).sum = 0 := h0
      constructor <;> simp [overallSummary, h]
    · have h : ((channelMetrics (mergedLedger sales inv lg) marketing).map
          (fun r => r.Net_Revenue)).sum = 0 := h0
      simp [overallSummary, h]

/-- A single marketing record with zero spend, for the zero-denominator
witness. -/
def mkt0 : MktRow :=
  { Date := (2024, 1, 5), Month := none, Channel := 2, Spend := 0 }

/-- Witness for C4: a marketing-only row with no orders and zero spend
has CAC, AOV, return rate, ROAS and CM zero; the empty dataset has all
blended ratios zero. -/
theorem ratio_zero_guards_witness :
    (addKPIs (zeroGroupRow (2, (2024, 1)))
      (mktSpendOf [mkt0] (2, (2024, 1)))).CAC = 0 ∧
    (addKPIs (zeroGroupRow (2, (2024, 1)))
      (mktSpendOf [mkt0] (2, (2024, 1)))).AOV = 0 ∧
    (addKPIs (zeroGroupRow (2, (2024, 1)))
      (mktSpendOf [mkt0] (2, (2024, 1)))).Return_Rate_Pct = 0 ∧
    (addKPIs (zeroGroupRow (2, (2024, 1)))
      (mktSpendOf [mkt0] (2, (2024, 1)))).ROAS = 0 ∧
    (addKPIs (zeroGroupRow (2, (2024, 1)))
      (mktSpendOf [mkt0] (2, (2024, 1)))).CM_Pct = 0 ∧
    (overallSummary (channelMetrics (mergedLedger [] invEx none)
      none)).Blended_ROAS = 0 ∧
    (overallSummary (channelMetrics (mergedLedger [] invEx none)
      none)).Blended_CAC = 0 ∧
    (overallSummary (channelMetrics (mergedLedger [] invEx none)
      none)).Return_Rate = 0 ∧
    (overallSummary (channelMetrics (mergedLedger [] invEx none)
      none)).Blended_CM_Pct = 0 := by
  have hA := (ratio_zero_guards [] invEx (some [mkt0]) none).1
    (addKPIs (zeroGroupRow (2, (2024, 1)))
      (mktSpendOf [mkt0] (2, (2024, 1))))
    (extraRow_mem (mergedLedger [] invEx none) [mkt0] (2, (2024, 1))
      (by decide) (by decide))
  have hB := (ratio_zero_guards [] invEx none none).2
    (overallSummary (channelMetrics (mergedLedger [] invEx none) none)) rfl
  obtain ⟨h1, h2, h3⟩ := hA
  have hOrd := h1 rfl
  have hROAS := h2 (by
    simp [mktSpendOf, withMonth, mktRowKey, monthOf, mkt0]
    rfl)
  refine ⟨hOrd.1, hOrd.2.1, hOrd.2.2, hROAS, h3 rfl,
    hB.1 rfl, (hB.2.1 rfl).1, (hB.2.1 rfl).2, hB.2.2 rfl⟩

/-- C6: the overall summary derives its blended ratios from the aggregate
column sums with the stated numerators and denominators — gross revenue
over spend for ROAS, spend over summed distinct orders for CAC, summed
contribution profit 2 over net revenue for CM%, and summed return count
over summed orders for the return rate — each zero-guarded. -/
theorem blended_summary_formulas (sales : List SalesRow)
    (inv : InventoryTable) (marketing : Option (List MktRow))
    (lg : Option LogisticsTable) :
    ∀ cm : List AggRow,
      cm = channelMetrics (mergedLedger sales inv lg) marketing →
      (overallSummary cm).Blended_ROAS
        = (if 0 < (cm.map (fun r => r.Spend)).sum
           then (cm.map (fun r => r.Revenue)).sum
                / (cm.map (fun r => r.Spend)).sum
           else 0) ∧
      (overallSummary cm).Blended_CAC
        = (if 0 < (cm.map (fun r => r.Order_ID)).sum
           then (cm.map (fun r => r.Spend)).sum
                / (((cm.map (fun r => r.Order_ID)).sum : ℕ) : ℚ)
           else 0) ∧
      (overallSummary cm).Blended_CM_Pct
        = (if 0 < (cm.map (fun r => r.Net_Revenue)).sum
           then (cm.map (fun r => r.Contribution_Profit_2)).sum
                / (cm.map (fun r => r.Net_Revenue)).sum
           else 0) ∧
      (overallSummary cm).Return_Rate
        = (if 0 < (cm.map (fun r => r.Order_ID)).sum
           then (((cm.map (fun r => r.Return_Count)).sum : ℤ) : ℚ)
                / (((cm.map (fun r => r.Order_ID)).sum : ℕ) : ℚ)
           else 0) := by
  intro cm _
  exact ⟨rfl, rfl, rfl, rfl⟩

/-- Witness for C6 at the empty aggregate. -/
theorem blended_summary_formulas_witness :
    (overallSummary ([] : List AggRow)).Blended_ROAS
      = (if 0 < (([] : List AggRow).map (fun r => r.Spend)).sum
         then (([] : List AggRow).map (fun r => r.Revenue)).sum
              / (([] : List AggRow).map (fun r => r.Spend)).sum
         else 0) ∧
    (overallSummary ([] : List AggRow)).Blended_CAC
      = (if 0 < (([] : List AggRow).map (fun r => r.Order_ID)).sum
         then (([] : List AggRow).map (fun r => r.Spend)).sum
              / (((([] : List AggRow).map (fun r => r.Order_ID)).sum : ℕ) : ℚ)
         else 0) ∧
    (overallSummary ([] : List AggRow)).Blended_CM_Pct
      = (if 0 < (([] : List AggRow).map (fun r => r.Net_Revenue)).sum
         then (([] : List AggRow).map
                (fun r => r.Contribution_Profit_2)).sum
              / (([] : List AggRow).map (fun r => r.Net_Revenue)).sum
         else 0) ∧
    (overallSummary ([] : List AggRow)).Return_Rate
      = (if 0 < (([] : List AggRow).map (fun r => r.Order_ID)).sum
         then (((([] : List AggRow).map (fun r => r.Return_Count)).sum : ℤ) : ℚ)
              / (((([] : List AggRow).map (fun r => r.Order_ID)).sum : ℕ) : ℚ)
         else 0) :=
  blended_summary_formulas [] invEx none none [] rfl
